import Mathlib

/-!
Shallow embedding of `src/delete_whatsapp_duplicates.py` (Immich WhatsApp
duplicate cleaner) and proofs about it.

Conventions of the embedding:
* JSON asset records become the `Asset` structure; a Python `dict.get(k, d)`
  on a possibly-missing key becomes `Option.getD`, while a raising subscript
  access `d[k]` becomes a `match` producing `Except.error` (a `KeyError`).
* Machine-independent Python integers become `Int`; time arithmetic on
  `datetime` values is carried out in seconds (`timedelta(hours=h)` is
  `h * 3600` seconds).
* Network and filesystem effects are passed in explicitly: the state of the
  cache file, the current time, and the outcome the HTTP library would
  deliver for the single request a function performs.
* Console printing is not modelled except where a print expression performs
  a raising dictionary access (those accesses are modelled), and for
  `delete_assets`, whose error report is part of a claim.
-/

/-! ## Character/string helpers (Python `str.lower` and the `in` operator) -/

/-- Is `needle` a prefix of `hay`?  (Helper for the Python `in` operator.) -/
def chars_starts : List Char → List Char → Bool
  | _, [] => true
  | [], _ :: _ => false
  | c :: cs, d :: ds => c == d && chars_starts cs ds

/-- Python `needle in hay` on strings, over explicit character lists. -/
def str_find : List Char → List Char → Bool
  | [], needle => needle.isEmpty
  | c :: rest, needle => chars_starts (c :: rest) needle || str_find rest needle

/-- Python `s.lower()` as a character list. -/
def lower_chars (s : String) : List Char := s.data.map Char.toLower

/-! ## Data model (section 3 of the spec; the JSON shapes the script reads) -/

/-- The nested `exifInfo` metadata block of an asset; `fileSizeInByte` may be
absent (`.get('fileSizeInByte', 0)` then yields 0). -/
structure ExifInfo where
  fileSizeInByte : Option Int
deriving DecidableEq

/-- One asset record of a duplicate group.  Every field the script touches may
be absent from the JSON object; `.get` accesses default, subscript accesses
raise `KeyError`. -/
structure Asset where
  id : Option String
  originalPath : Option String
  originalFileName : Option String
  exifInfo : Option ExifInfo
deriving DecidableEq

/-- A duplicate group; the script reads `duplicate_group.get('assets', [])`. -/
structure DuplicateGroup where
  assets : Option (List Asset)
deriving DecidableEq

/-- `asset.get('exifInfo', {}).get('fileSizeInByte', 0)` (lines 189, 197). -/
def file_size_in_byte (asset : Asset) : Int :=
  match asset.exifInfo with
  | none => 0
  | some e => e.fileSizeInByte.getD 0

/-! ## WhatsApp-origin classifier (`is_whatsapp_asset`, lines 144-160) -/

/-- The hardcoded indicator list of `is_whatsapp_asset` (lines 150-156).  The
entries `'wa0'`, `'img-'` and `'-wa0'` appear in the source only as
commented-out list elements and are therefore not part of this list. -/
def whatsapp_indicators : List String := ["whatsapp", "/sent/"]

/-- `is_whatsapp_asset(asset)` (lines 144-160): lowercase `originalPath` and
`originalFileName` (defaulting to the empty string), join them with a single
space, lowercase again, and test whether any indicator occurs as a substring. -/
def is_whatsapp_asset (asset : Asset) : Bool :=
  let original_path := lower_chars (asset.originalPath.getD "")
  let original_filename := lower_chars (asset.originalFileName.getD "")
  let path_and_filename := (original_path ++ [' '] ++ original_filename).map Char.toLower
  whatsapp_indicators.any (fun indicator => str_find path_and_filename indicator.data)

/-- Modelled from the spec: the spec (section 4.2) requires the indicator set
to be configurable ("Implementers must support configuring which indicator set
is active"), but the source hardcodes `whatsapp_indicators` inside
`is_whatsapp_asset` with no configuration hook.  This variant is the same
classifier body with the indicator list as a parameter, representing the
configurable classifier the spec describes. -/
def is_whatsapp_asset_with (indicators : List String) (asset : Asset) : Bool :=
  let original_path := lower_chars (asset.originalPath.getD "")
  let original_filename := lower_chars (asset.originalFileName.getD "")
  let path_and_filename := (original_path ++ [' '] ++ original_filename).map Char.toLower
  indicators.any (fun indicator => str_find path_and_filename indicator.data)

/-- Modelled from the spec: the broadened indicator set ("generic
device-export filename prefixes and numeric suffix patterns").  In the source
its extra entries exist only as the commented-out lines 152, 154, 155. -/
def broadened_indicators : List String := ["whatsapp", "wa0", "/sent/", "img-", "-wa0"]

/-! ## Deletion-candidate selector (`find_whatsapp_duplicates_to_delete`,
lines 163-222).  Python list mutation plus exception propagation becomes
`Except String (List String)`: a raised `KeyError` aborts the whole call and
discards the partially built list, exactly as an uncaught exception does. -/

/-- The inner `for orig_asset in non_whatsapp_assets` loop (lines 196-202),
threading the accumulators `has_larger_original`, `largest_original_size`,
`largest_original_name`.  `orig_asset['originalFileName']` (line 202) raises
when the field is absent. -/
def scan_non_whatsapp (wa_file_size : Int) :
    List Asset → Bool → Int → String → Except String (Bool × Int × String)
  | [], has_larger_original, largest_original_size, largest_original_name =>
    Except.ok (has_larger_original, largest_original_size, largest_original_name)
  | orig_asset :: rest, has_larger_original, largest_original_size, largest_original_name =>
    let orig_file_size := file_size_in_byte orig_asset
    if orig_file_size > wa_file_size then
      if orig_file_size > largest_original_size then
        match orig_asset.originalFileName with
        | none => Except.error "KeyError: originalFileName"
        | some name => scan_non_whatsapp wa_file_size rest true orig_file_size name
      else
        scan_non_whatsapp wa_file_size rest true largest_original_size largest_original_name
    else
      scan_non_whatsapp wa_file_size rest has_larger_original largest_original_size
        largest_original_name

/-- The body of `for wa_asset in whatsapp_assets` (lines 188-215) for one
`wa_asset`, returning that asset's contribution to `assets_to_delete`.
On the deleting branch the accesses are `wa_asset['id']` (line 205), then
`wa_asset['originalFileName']` (line 206), then `wa_asset['originalPath']`
(line 207); on the skipping branch `wa_asset['originalFileName']` (line 213). -/
def process_whatsapp_asset (non_whatsapp_assets : List Asset) (wa_asset : Asset) :
    Except String (List String) :=
  match scan_non_whatsapp (file_size_in_byte wa_asset) non_whatsapp_assets false 0 "" with
  | Except.error e => Except.error e
  | Except.ok r =>
    if r.1 then
      match wa_asset.id with
      | none => Except.error "KeyError: id"
      | some i =>
        match wa_asset.originalFileName with
        | none => Except.error "KeyError: originalFileName"
        | some _ =>
          match wa_asset.originalPath with
          | none => Except.error "KeyError: originalPath"
          | some _ => Except.ok [i]
    else
      match wa_asset.originalFileName with
      | none => Except.error "KeyError: originalFileName"
      | some _ => Except.ok []

/-- The `for wa_asset in whatsapp_assets` loop (lines 188-215), concatenating
the per-asset contributions in iteration order. -/
def process_whatsapp_assets (non_whatsapp_assets : List Asset) :
    List Asset → Except String (List String)
  | [] => Except.ok []
  | wa_asset :: rest =>
    match process_whatsapp_asset non_whatsapp_assets wa_asset with
    | Except.error e => Except.error e
    | Except.ok here =>
      match process_whatsapp_assets non_whatsapp_assets rest with
      | Except.error e => Except.error e
      | Except.ok there => Except.ok (here ++ there)

/-- The body of `for duplicate_group in duplicates` (lines 171-215) for one
group: skip groups with fewer than two assets (line 173), partition by
`is_whatsapp_asset` (lines 179-183), and only process when both partitions are
non-empty (line 187, Python truthiness of the two lists). -/
def process_duplicate_group (duplicate_group : DuplicateGroup) : Except String (List String) :=
  let assets := duplicate_group.assets.getD []
  if assets.length < 2 then Except.ok []
  else
    let whatsapp_assets := (assets.partition is_whatsapp_asset).1
    let non_whatsapp_assets := (assets.partition is_whatsapp_asset).2
    if whatsapp_assets ≠ [] ∧ non_whatsapp_assets ≠ [] then
      process_whatsapp_assets non_whatsapp_assets whatsapp_assets
    else Except.ok []

/-- `find_whatsapp_duplicates_to_delete(duplicates)` (lines 163-222): the
deletion candidate list in group iteration order, or the first uncaught
`KeyError`. -/
def find_whatsapp_duplicates_to_delete : List DuplicateGroup → Except String (List String)
  | [] => Except.ok []
  | g :: rest =>
    match process_duplicate_group g with
    | Except.error e => Except.error e
    | Except.ok here =>
      match find_whatsapp_duplicates_to_delete rest with
      | Except.error e => Except.error e
      | Except.ok there => Except.ok (here ++ there)

/-- The ids of the WhatsApp-classified assets of the input, in iteration
order with multiplicity (used to bound the selector's output). -/
def origin_asset_ids (duplicates : List DuplicateGroup) : List String :=
  (duplicates.map (fun g =>
    ((g.assets.getD []).filter is_whatsapp_asset).filterMap (fun a => a.id))).flatten

/-! ## Duplicate-group source (`ImmichAPI`, lines 31-113) -/

/-- The on-disk cache file: its filesystem modification time (seconds) and its
parse result (`none` when `json.load` would fail on its contents). -/
structure CacheFile where
  mtime : Int
  content : Option (List DuplicateGroup)
deriving DecidableEq

/-- What `requests.get` delivers for the one GET the fetch performs: a
response (status, body text, and the body's parse result, `none` when
`response.json()` would raise), a timeout, or another network error. -/
inductive HttpResult where
  | response (status : Nat) (text : String) (json : Option (List DuplicateGroup))
  | timeoutErr
  | requestErr (msg : String)
deriving DecidableEq

/-- `ImmichAPI._is_cache_valid` (lines 41-48): the cache file exists and
`now - mtime < timedelta(hours=max_age_hours)` (strict). -/
def _is_cache_valid (cache : Option CacheFile) (now : Int) (max_age_hours : Int) : Bool :=
  match cache with
  | none => false
  | some cf => decide (now - cf.mtime < max_age_hours * 3600)

/-- `ImmichAPI._load_cache` (lines 59-66): parse the cache file, returning
`[]` on any failure (missing file or malformed contents - both are caught). -/
def _load_cache (cache : Option CacheFile) : List DuplicateGroup :=
  match cache with
  | none => []
  | some cf => cf.content.getD []

/-- Lines 82-113 of `ImmichAPI.get_asset_duplicates`: the fresh-fetch path.
On a 200 response the parsed body is returned (and cached, a side effect on
the file not affecting the returned value; `_save_cache` catches its own
errors).  A non-200 status, a timeout, a network error, or a
`response.json()` parse failure (whose `requests` exception is a
`RequestException`, caught by line 108) falls back to the cache when the
cache file exists (`os.path.exists`), else returns `[]`. -/
def fetch_fresh (cache : Option CacheFile) (http : HttpResult) : List DuplicateGroup :=
  match http with
  | HttpResult.response status _text json =>
    if status == 200 then
      match json with
      | some data => data
      | none => if cache.isSome then _load_cache cache else []
    else
      if cache.isSome then _load_cache cache else []
  | HttpResult.timeoutErr => if cache.isSome then _load_cache cache else []
  | HttpResult.requestErr _ => if cache.isSome then _load_cache cache else []

/-- `ImmichAPI.get_asset_duplicates(force_refresh)` (lines 68-113): serve the
cache when `not force_refresh and self._is_cache_valid()`, else fetch fresh. -/
def get_asset_duplicates (cache : Option CacheFile) (now : Int) (http : HttpResult)
    (force_refresh : Bool) : List DuplicateGroup :=
  if !force_refresh && _is_cache_valid cache now 24 then
    _load_cache cache
  else
    fetch_fresh cache http

/-- Did the modelled request fail (non-success status, timeout, or network
error)?  A 200 response, even one whose body later fails to parse, is not a
request failure. -/
def http_failed : HttpResult → Bool
  | HttpResult.response status _ _ => status != 200
  | HttpResult.timeoutErr => true
  | HttpResult.requestErr _ => true

/-- `load_duplicates_from_file(filename)` (lines 225-235): `none` models a
missing file (`FileNotFoundError` caught), `some none` a present but
malformed file (`json.JSONDecodeError` caught); both return `[]`. -/
def load_duplicates_from_file (file : Option (Option (List DuplicateGroup))) :
    List DuplicateGroup :=
  match file with
  | none => []
  | some none => []
  | some (some data) => data

/-! ## Deletion executor (`ImmichAPI.delete_assets`, lines 115-129) -/

/-- What `requests.delete` would deliver if called: a response or a raised
exception.  `delete_assets` wraps the call in no try/except. -/
inductive DeleteHttp where
  | response (status : Nat) (text : String)
  | raise (msg : String)
deriving DecidableEq

/-- Observable outcome of one `delete_assets` call: the request payloads
issued (each an `ids` list), the error text printed (line 128), and the
returned value or propagated exception. -/
structure DeleteCallResult where
  requests : List (List String)
  reported : Option String
  result : Except String Bool

/-- `ImmichAPI.delete_assets(asset_ids)` (lines 115-129): an empty list
returns `True` before any request; otherwise one DELETE is issued with all
ids, `True` is returned exactly on status 204, any other status prints the
status and body and returns `False`, and a raised exception propagates
(there is no try/except around `requests.delete`). -/
def delete_assets (asset_ids : List String) (http : DeleteHttp) : DeleteCallResult :=
  if asset_ids = [] then ⟨[], none, Except.ok true⟩
  else
    match http with
    | DeleteHttp.raise e => ⟨[asset_ids], none, Except.error e⟩
    | DeleteHttp.response status text =>
      if status == 204 then ⟨[asset_ids], none, Except.ok true⟩
      else
        ⟨[asset_ids],
         some ("Error deleting assets: " ++ toString status ++ " - " ++ text),
         Except.ok false⟩

/-! ## Batch deletion loop of `main` (lines 307-322) -/

/-- The successive slices `assets_to_delete[i:i + batch_size]` for
`i in range(0, len(assets_to_delete), 50)`. -/
def batch_chunks : List String → List (List String)
  | [] => []
  | a :: rest => (a :: rest).take 50 :: batch_chunks ((a :: rest).drop 50)
termination_by l => l.length
decreasing_by simp [List.length_drop]; omega

/-- The deletion loop of `main` (lines 311-320): `outcomes k` is the boolean
`api.delete_assets` returns for the `k`-th batch.  Returns the list of batch
payloads actually passed to `delete_assets` and the final `total_deleted`
count; a `False` outcome executes `break`. -/
def main_batch_loop (outcomes : Nat → Bool) : List String → Nat → List (List String) × Nat
  | [], _ => ([], 0)
  | a :: rest, k =>
    let batch := (a :: rest).take 50
    if outcomes k then
      let r := main_batch_loop outcomes ((a :: rest).drop 50) (k + 1)
      (batch :: r.1, batch.length + r.2)
    else
      ([batch], 0)
termination_by l _ => l.length
decreasing_by simp [List.length_drop]; omega

/-- Did an `Except` computation finish without a propagated exception? -/
def is_ok {ε α : Type} : Except ε α → Bool
  | Except.ok _ => true
  | Except.error _ => false

/-! ## Concrete records used by witnesses and counterexamples -/

/-- A WhatsApp-classified asset of size 100 with all string fields present. -/
def wa_asset_100 : Asset :=
  ⟨some "wa1", some "/albums/WhatsApp Images/img1.jpg", some "img1.jpg", some ⟨some 100⟩⟩

/-- A non-WhatsApp asset of size 200. -/
def orig_asset_200 : Asset :=
  ⟨some "orig1", some "/albums/Camera/photo.jpg", some "photo.jpg", some ⟨some 200⟩⟩

/-- A non-WhatsApp asset of size 50. -/
def orig_asset_50 : Asset :=
  ⟨some "orig2", some "/albums/Camera/photo2.jpg", some "photo2.jpg", some ⟨some 50⟩⟩

/-- A non-WhatsApp asset with no `exifInfo` block at all. -/
def orig_asset_noexif : Asset :=
  ⟨some "orig3", some "/albums/Camera/photo3.jpg", some "photo3.jpg", none⟩

/-- A WhatsApp-classified asset of size 100 whose `originalFileName` is
absent. -/
def wa_asset_noname : Asset :=
  ⟨some "wa2", some "/albums/WhatsApp Images/img2.jpg", none, some ⟨some 100⟩⟩

/-- The spec's classifier example `/albums/Camera/IMG-20230101.jpg`. -/
def camera_asset : Asset :=
  ⟨some "cam1", some "/albums/Camera/IMG-20230101.jpg", some "IMG-20230101.jpg", none⟩

/-- Origin asset of size 100 next to an original of size 200: qualifies. -/
def sel_group : DuplicateGroup := ⟨some [wa_asset_100, orig_asset_200]⟩

/-- Origin asset of size 100 next to an original of size 50: skipped. -/
def skip_group : DuplicateGroup := ⟨some [wa_asset_100, orig_asset_50]⟩

/-- A single-asset group. -/
def single_group : DuplicateGroup := ⟨some [orig_asset_200]⟩

/-- A well-formed group whose non-WhatsApp member has no metadata block. -/
def noexif_group : DuplicateGroup := ⟨some [wa_asset_100, orig_asset_noexif]⟩

/-- A group whose skipped WhatsApp asset is missing `originalFileName`. -/
def keyerr_group : DuplicateGroup := ⟨some [wa_asset_noname, orig_asset_50]⟩

/-! ## Helper lemmas about the selector -/

/-- When the inner scan finishes without a `KeyError`, its
`has_larger_original` result is true exactly when the flag came in true or
some scanned asset is strictly larger than `wa_file_size`. -/
theorem scan_non_whatsapp_ok (ws : Int) :
    ∀ (l : List Asset) (b : Bool) (s : Int) (n : String) (h : Bool) (s2 : Int) (n2 : String),
      scan_non_whatsapp ws l b s n = Except.ok (h, s2, n2) →
      (h = true ↔ (b = true ∨ ∃ o ∈ l, ws < file_size_in_byte o)) := by
  intro l
  induction l with
  | nil =>
    intro b s n h s2 n2 hscan
    simp only [scan_non_whatsapp, Except.ok.injEq, Prod.mk.injEq] at hscan
    simp [← hscan.1]
  | cons o rest ih =>
    intro b s n h s2 n2 hscan
    simp only [scan_non_whatsapp] at hscan
    by_cases h1 : file_size_in_byte o > ws
    · rw [if_pos h1] at hscan
      by_cases h2 : file_size_in_byte o > s
      · rw [if_pos h2] at hscan
        cases hname : o.originalFileName with
        | none => rw [hname] at hscan; cases hscan
        | some name =>
          rw [hname] at hscan
          have hr := ih true (file_size_in_byte o) name h s2 n2 hscan
          constructor
          · intro _
            exact Or.inr ⟨o, List.mem_cons_self o rest, h1⟩
          · intro _
            exact hr.mpr (Or.inl rfl)
      · rw [if_neg h2] at hscan
        have hr := ih true s n h s2 n2 hscan
        constructor
        · intro _
          exact Or.inr ⟨o, List.mem_cons_self o rest, h1⟩
        · intro _
          exact hr.mpr (Or.inl rfl)
    · rw [if_neg h1] at hscan
      have hr := ih b s n h s2 n2 hscan
      rw [hr]
      constructor
      · rintro (hb | ⟨o2, ho2, hsz⟩)
        · exact Or.inl hb
        · exact Or.inr ⟨o2, List.mem_cons_of_mem o ho2, hsz⟩
      · rintro (hb | ⟨o2, ho2, hsz⟩)
        · exact Or.inl hb
        · rcases List.mem_cons.mp ho2 with heq | ho2
          · exact absurd (heq ▸ hsz) h1
          · exact Or.inr ⟨o2, ho2, hsz⟩

/-- Membership in one WhatsApp asset's contribution: exactly its `id`, and
only when some non-WhatsApp asset is strictly larger. -/
theorem process_whatsapp_asset_mem (non_wa : List Asset) (wa : Asset) (out : List String)
    (h : process_whatsapp_asset non_wa wa = Except.ok out) :
    ∀ x, (x ∈ out ↔ (wa.id = some x ∧
      ∃ o ∈ non_wa, file_size_in_byte wa < file_size_in_byte o)) := by
  intro x
  unfold process_whatsapp_asset at h
  cases hscan : scan_non_whatsapp (file_size_in_byte wa) non_wa false 0 "" with
  | error e => rw [hscan] at h; cases h
  | ok r =>
    rw [hscan] at h
    obtain ⟨hl, s2, n2⟩ := r
    have hiff := scan_non_whatsapp_ok (file_size_in_byte wa) non_wa false 0 "" hl s2 n2 hscan
    simp only [Bool.false_eq_true, false_or] at hiff
    dsimp only at h
    cases hl with
    | false =>
      have hno : ¬ ∃ o ∈ non_wa, file_size_in_byte wa < file_size_in_byte o := by
        intro hex
        exact absurd (hiff.mpr hex) (by simp)
      cases hname : wa.originalFileName with
      | none => rw [if_neg (by simp), hname] at h; cases h
      | some nm =>
        rw [if_neg (by simp), hname] at h
        injection h with h
        subst h
        simp [hno]
    | true =>
      have hex : ∃ o ∈ non_wa, file_size_in_byte wa < file_size_in_byte o := hiff.mp rfl
      rw [if_pos rfl] at h
      cases hid : wa.id with
      | none => rw [hid] at h; cases h
      | some i =>
        rw [hid] at h
        cases hname : wa.originalFileName with
        | none => rw [hname] at h; cases h
        | some nm =>
          rw [hname] at h
          cases hpath : wa.originalPath with
          | none => rw [hpath] at h; cases h
          | some p =>
            rw [hpath] at h
            injection h with h
            subst h
            simp only [List.mem_singleton, Option.some.injEq]
            constructor
            · intro hx
              exact ⟨hx.symm, hex⟩
            · intro hx
              exact hx.1.symm

/-- Membership in the concatenated contributions of all WhatsApp assets of a
group. -/
theorem process_whatsapp_assets_mem (non_wa : List Asset) :
    ∀ (was : List Asset) (out : List String),
      process_whatsapp_assets non_wa was = Except.ok out →
      ∀ x, (x ∈ out ↔ ∃ wa ∈ was, wa.id = some x ∧
        ∃ o ∈ non_wa, file_size_in_byte wa < file_size_in_byte o) := by
  intro was
  induction was with
  | nil =>
    intro out h x
    simp only [process_whatsapp_assets, Except.ok.injEq] at h
    simp [← h]
  | cons wa rest ih =>
    intro out h x
    simp only [process_whatsapp_assets] at h
    cases h1 : process_whatsapp_asset non_wa wa with
    | error e => rw [h1] at h; cases h
    | ok here =>
      rw [h1] at h
      cases h2 : process_whatsapp_assets non_wa rest with
      | error e => rw [h2] at h; cases h
      | ok there =>
        rw [h2] at h
        injection h with h
        subst h
        have hhere := process_whatsapp_asset_mem non_wa wa here h1 x
        have hthere := ih there h2 x
        simp only [List.mem_append, hhere, hthere, List.mem_cons]
        constructor
        · rintro (⟨hid, hex⟩ | ⟨wa2, hwa2, hid, hex⟩)
          · exact ⟨wa, Or.inl rfl, hid, hex⟩
          · exact ⟨wa2, Or.inr hwa2, hid, hex⟩
        · rintro ⟨wa2, (heq | hwa2), hid, hex⟩
          · subst heq
            exact Or.inl ⟨hid, hex⟩
          · exact Or.inr ⟨wa2, hwa2, hid, hex⟩

/-! ## C1 and C2 -/

/-- C1: Size-aware selection rule.  For every duplicate group with at least
two assets containing both WhatsApp-origin and non-origin assets, on which the
selector completes without a KeyError, an origin asset's id is in the deletion
candidate list if and only if some non-origin asset of the same group has a
strictly greater byte count (byte counts default to 0 when the metadata block
or size field is absent). -/
theorem C1_size_aware_selection (g : DuplicateGroup) (ids : List String)
    (hlen : 2 ≤ (g.assets.getD []).length)
    (hwa : ∃ a ∈ g.assets.getD [], is_whatsapp_asset a = true)
    (hnon : ∃ a ∈ g.assets.getD [], is_whatsapp_asset a = false)
    (hok : find_whatsapp_duplicates_to_delete [g] = Except.ok ids) :
    ∀ x, x ∈ ids ↔ ∃ a ∈ g.assets.getD [], is_whatsapp_asset a = true ∧ a.id = some x ∧
      ∃ b ∈ g.assets.getD [], is_whatsapp_asset b = false ∧
        file_size_in_byte a < file_size_in_byte b := by
  intro x
  have hg : process_duplicate_group g = Except.ok ids := by
    simp only [find_whatsapp_duplicates_to_delete] at hok
    cases hpg : process_duplicate_group g with
    | error e => rw [hpg] at hok; cases hok
    | ok here =>
      rw [hpg] at hok
      simp only [List.append_nil, Except.ok.injEq] at hok
      rw [hok]
  obtain ⟨a0, ha0, hpa0⟩ := hwa
  obtain ⟨b0, hb0, hpb0⟩ := hnon
  simp only [process_duplicate_group, List.partition_eq_filter_filter] at hg
  rw [if_neg (by omega)] at hg
  have hfst : (g.assets.getD []).filter is_whatsapp_asset ≠ [] :=
    List.ne_nil_of_mem (List.mem_filter.mpr ⟨ha0, hpa0⟩)
  have hsnd : (g.assets.getD []).filter (not ∘ is_whatsapp_asset) ≠ [] :=
    List.ne_nil_of_mem (List.mem_filter.mpr ⟨hb0, by simp [Function.comp, hpb0]⟩)
  rw [if_pos ⟨hfst, hsnd⟩] at hg
  have hmem := process_whatsapp_assets_mem _ _ ids hg x
  rw [hmem]
  simp only [List.mem_filter, Function.comp, Bool.not_eq_true']
  constructor
  · rintro ⟨wa, ⟨hwam, hwap⟩, hid, o, ⟨hom, hop⟩, hsz⟩
    exact ⟨wa, hwam, hwap, hid, o, hom, hop, hsz⟩
  · rintro ⟨a, ham, hap, hid, b, hbm, hbp, hsz⟩
    exact ⟨a, ⟨ham, hap⟩, hid, ⟨b, ⟨hbm, hbp⟩, hsz⟩⟩

/-- C1 witness: the spec's two concrete cases.  A group with an origin asset
of size 100 and another asset of size 200 selects the origin asset's id; the
same group with other-asset size 50 selects nothing; and the selection is
exactly characterized by the strictly-larger condition. -/
theorem C1_size_aware_selection_witness :
    find_whatsapp_duplicates_to_delete [sel_group] = Except.ok ["wa1"] ∧
    find_whatsapp_duplicates_to_delete [skip_group] = Except.ok [] ∧
    ("wa1" ∈ (["wa1"] : List String) ↔
      ∃ a ∈ sel_group.assets.getD [], is_whatsapp_asset a = true ∧ a.id = some "wa1" ∧
        ∃ b ∈ sel_group.assets.getD [], is_whatsapp_asset b = false ∧
          file_size_in_byte a < file_size_in_byte b) :=
  ⟨rfl, rfl,
   C1_size_aware_selection sel_group ["wa1"] (by decide) (by decide) (by decide) rfl "wa1"⟩

/-- C2: a group with fewer than two assets, or all of whose assets are
classified origin, or all non-origin, contributes nothing to the run: the
selector behaves as if the group were absent. -/
theorem C2_skip_degenerate_groups (g : DuplicateGroup)
    (hskip : (g.assets.getD []).length < 2 ∨
      (∀ a ∈ g.assets.getD [], is_whatsapp_asset a = true) ∨
      (∀ a ∈ g.assets.getD [], is_whatsapp_asset a = false)) :
    ∀ rest, find_whatsapp_duplicates_to_delete (g :: rest) =
      find_whatsapp_duplicates_to_delete rest := by
  have hg : process_duplicate_group g = Except.ok [] := by
    simp only [process_duplicate_group, List.partition_eq_filter_filter]
    rcases hskip with hlen | hall | hall
    · rw [if_pos hlen]
    · by_cases hlen : (g.assets.getD []).length < 2
      · rw [if_pos hlen]
      · rw [if_neg hlen, if_neg]
        intro hcond
        have : (g.assets.getD []).filter (not ∘ is_whatsapp_asset) = [] :=
          List.filter_eq_nil_iff.mpr (fun a ha => by simp [Function.comp, hall a ha])
        exact hcond.2 this
    · by_cases hlen : (g.assets.getD []).length < 2
      · rw [if_pos hlen]
      · rw [if_neg hlen, if_neg]
        intro hcond
        have : (g.assets.getD []).filter is_whatsapp_asset = [] :=
          List.filter_eq_nil_iff.mpr (fun a ha => by simp [hall a ha])
        exact hcond.1 this
  intro rest
  cases hr : find_whatsapp_duplicates_to_delete rest with
  | error e => simp [find_whatsapp_duplicates_to_delete, hg, hr]
  | ok there => simp [find_whatsapp_duplicates_to_delete, hg, hr]

/-- C2 witness: a single-asset group contributes nothing. -/
theorem C2_skip_degenerate_groups_witness :
    find_whatsapp_duplicates_to_delete [single_group] =
      find_whatsapp_duplicates_to_delete [] :=
  C2_skip_degenerate_groups single_group (Or.inl (by decide)) []

/-! ## C3 -/

/-- C3 counterexample: the claim quantifies over every input list of duplicate
groups, but the selector performs no deduplication.  When the same qualifying
group occurs twice in the input, the origin asset's identifier is emitted
twice (its count in the candidate list is 2). -/
theorem C3_duplicate_id_counterexample :
    find_whatsapp_duplicates_to_delete [sel_group, sel_group] =
      Except.ok ["wa1", "wa1"] ∧
    (["wa1", "wa1"] : List String).count "wa1" = 2 := by
  exact ⟨rfl, rfl⟩

/-- One WhatsApp asset contributes at most its own id. -/
theorem process_whatsapp_asset_sublist (non_wa : List Asset) (wa : Asset) (out : List String)
    (h : process_whatsapp_asset non_wa wa = Except.ok out) :
    out.Sublist wa.id.toList := by
  unfold process_whatsapp_asset at h
  cases hscan : scan_non_whatsapp (file_size_in_byte wa) non_wa false 0 "" with
  | error e => rw [hscan] at h; cases h
  | ok r =>
    rw [hscan] at h
    dsimp only at h
    by_cases hr : r.1 = true
    · rw [if_pos hr] at h
      cases hid : wa.id with
      | none => rw [hid] at h; cases h
      | some i =>
        rw [hid] at h
        cases hname : wa.originalFileName with
        | none => rw [hname] at h; cases h
        | some nm =>
          rw [hname] at h
          cases hpath : wa.originalPath with
          | none => rw [hpath] at h; cases h
          | some p =>
            rw [hpath] at h
            injection h with h
            subst h
            simp [Option.toList]
    · rw [if_neg hr] at h
      cases hname : wa.originalFileName with
      | none => rw [hname] at h; cases h
      | some nm =>
        rw [hname] at h
        injection h with h
        subst h
        exact List.nil_sublist _

/-- The contributions of a group's WhatsApp assets form a sublist of those
assets' ids in order. -/
theorem process_whatsapp_assets_sublist (non_wa : List Asset) :
    ∀ (was : List Asset) (out : List String),
      process_whatsapp_assets non_wa was = Except.ok out →
      out.Sublist (was.filterMap (fun a => a.id)) := by
  intro was
  induction was with
  | nil =>
    intro out h
    simp only [process_whatsapp_assets, Except.ok.injEq] at h
    simp [← h]
  | cons wa rest ih =>
    intro out h
    simp only [process_whatsapp_assets] at h
    cases h1 : process_whatsapp_asset non_wa wa with
    | error e => rw [h1] at h; cases h
    | ok here =>
      rw [h1] at h
      cases h2 : process_whatsapp_assets non_wa rest with
      | error e => rw [h2] at h; cases h
      | ok there =>
        rw [h2] at h
        injection h with h
        subst h
        have hhere := process_whatsapp_asset_sublist non_wa wa here h1
        have hthere := ih there h2
        rw [List.filterMap_cons]
        cases hid : wa.id with
        | none =>
          rw [hid] at hhere
          simp only [Option.toList, List.sublist_nil] at hhere
          subst hhere
          simpa using hthere
        | some i =>
          rw [hid] at hhere
          exact List.Sublist.append hhere hthere

/-- A group's contribution is a sublist of the ids of its WhatsApp-classified
assets. -/
theorem process_duplicate_group_sublist (g : DuplicateGroup) (out : List String)
    (h : process_duplicate_group g = Except.ok out) :
    out.Sublist (((g.assets.getD []).filter is_whatsapp_asset).filterMap (fun a => a.id)) := by
  simp only [process_duplicate_group, List.partition_eq_filter_filter] at h
  by_cases hlen : (g.assets.getD []).length < 2
  · rw [if_pos hlen] at h
    injection h with h
    subst h
    exact List.nil_sublist _
  · rw [if_neg hlen] at h
    by_cases hcond : (g.assets.getD []).filter is_whatsapp_asset ≠ [] ∧
        (g.assets.getD []).filter (not ∘ is_whatsapp_asset) ≠ []
    · rw [if_pos hcond] at h
      exact process_whatsapp_assets_sublist _ _ out h
    · rw [if_neg hcond] at h
      injection h with h
      subst h
      exact List.nil_sublist _

/-- The selector's output is a sublist of `origin_asset_ids` of the input. -/
theorem find_whatsapp_duplicates_sublist :
    ∀ (duplicates : List DuplicateGroup) (out : List String),
      find_whatsapp_duplicates_to_delete duplicates = Except.ok out →
      out.Sublist (origin_asset_ids duplicates) := by
  intro duplicates
  induction duplicates with
  | nil =>
    intro out h
    simp only [find_whatsapp_duplicates_to_delete, Except.ok.injEq] at h
    simp [← h]
  | cons g rest ih =>
    intro out h
    simp only [find_whatsapp_duplicates_to_delete] at h
    cases h1 : process_duplicate_group g with
    | error e => rw [h1] at h; cases h
    | ok here =>
      rw [h1] at h
      cases h2 : find_whatsapp_duplicates_to_delete rest with
      | error e => rw [h2] at h; cases h
      | ok there =>
        rw [h2] at h
        injection h with h
        subst h
        have hhere := process_duplicate_group_sublist g here h1
        have hthere := ih there h2
        simp only [origin_asset_ids, List.map_cons, List.flatten_cons]
        exact List.Sublist.append hhere hthere

/-- C3 (amended): on inputs whose WhatsApp-classified assets carry pairwise
distinct ids (with multiplicity, across all groups), no identifier appears in
the deletion candidate list more than once.  The unamended claim, over every
input, fails: see the counterexample. -/
theorem C3_nodup_of_distinct_origin_ids (duplicates : List DuplicateGroup)
    (out : List String)
    (hnodup : (origin_asset_ids duplicates).Nodup)
    (h : find_whatsapp_duplicates_to_delete duplicates = Except.ok out) :
    out.Nodup :=
  List.Nodup.sublist (find_whatsapp_duplicates_sublist duplicates out h) hnodup

/-- C3 witness: a run on a single qualifying group, whose origin ids are
distinct, yields a duplicate-free candidate list. -/
theorem C3_nodup_of_distinct_origin_ids_witness :
    origin_asset_ids [sel_group] = ["wa1"] ∧ (["wa1"] : List String).Nodup :=
  ⟨rfl, C3_nodup_of_distinct_origin_ids [sel_group] ["wa1"] (by decide) rfl⟩

/-! ## C10 -/

/-- C10 counterexample: the claim says missing fields on assets that are
merely classified or skipped never cause an error, but the skip report (line
213) performs the raising access `wa_asset['originalFileName']`.  A group
whose origin asset (size 100, id present, `originalFileName` absent) does NOT
qualify for deletion (the other asset has size 50) still makes the selector
raise a `KeyError` instead of skipping quietly. -/
theorem C10_skipped_asset_keyerror_counterexample :
    find_whatsapp_duplicates_to_delete [keyerr_group] =
      Except.error "KeyError: originalFileName" ∧
    file_size_in_byte wa_asset_noname = 100 ∧
    file_size_in_byte orig_asset_50 = 50 ∧
    wa_asset_noname.id = some "wa2" :=
  ⟨rfl, rfl, rfl, rfl⟩

/-- The inner scan never raises when every scanned asset carries
`originalFileName`. -/
theorem scan_non_whatsapp_total (ws : Int) :
    ∀ (l : List Asset), (∀ o ∈ l, o.originalFileName.isSome = true) →
      ∀ (b : Bool) (s : Int) (n : String),
        ∃ r, scan_non_whatsapp ws l b s n = Except.ok r := by
  intro l
  induction l with
  | nil =>
    intro _ b s n
    exact ⟨(b, s, n), rfl⟩
  | cons o rest ih =>
    intro hnames b s n
    have hor : ∀ o2 ∈ rest, o2.originalFileName.isSome = true :=
      fun o2 ho2 => hnames o2 (List.mem_cons_of_mem o ho2)
    simp only [scan_non_whatsapp]
    by_cases h1 : file_size_in_byte o > ws
    · rw [if_pos h1]
      by_cases h2 : file_size_in_byte o > s
      · rw [if_pos h2]
        obtain ⟨nm, hnm⟩ := Option.isSome_iff_exists.mp (hnames o (List.mem_cons_self o rest))
        rw [hnm]
        exact ih hor true (file_size_in_byte o) nm
      · rw [if_neg h2]
        exact ih hor true s n
    · rw [if_neg h1]
      exact ih hor b s n

/-- One WhatsApp asset is processed without error as soon as it carries `id`,
`originalFileName` and `originalPath` and every non-WhatsApp asset carries
`originalFileName`; its metadata block may be absent. -/
theorem process_whatsapp_asset_total (non_wa : List Asset) (wa : Asset)
    (hid : wa.id.isSome = true) (hname : wa.originalFileName.isSome = true)
    (hpath : wa.originalPath.isSome = true)
    (hnames : ∀ o ∈ non_wa, o.originalFileName.isSome = true) :
    ∃ out, process_whatsapp_asset non_wa wa = Except.ok out := by
  obtain ⟨r, hscan⟩ :=
    scan_non_whatsapp_total (file_size_in_byte wa) non_wa hnames false 0 ""
  obtain ⟨i, hi⟩ := Option.isSome_iff_exists.mp hid
  obtain ⟨nm, hnm⟩ := Option.isSome_iff_exists.mp hname
  obtain ⟨p, hp⟩ := Option.isSome_iff_exists.mp hpath
  unfold process_whatsapp_asset
  rw [hscan]
  dsimp only
  by_cases hr : r.1 = true
  · rw [if_pos hr, hi, hnm, hp]
    exact ⟨[i], rfl⟩
  · rw [if_neg hr, hnm]
    exact ⟨[], rfl⟩

/-- The WhatsApp-assets loop of a group never raises on such assets. -/
theorem process_whatsapp_assets_total (non_wa : List Asset)
    (hnames : ∀ o ∈ non_wa, o.originalFileName.isSome = true) :
    ∀ (was : List Asset),
      (∀ a ∈ was, a.id.isSome = true ∧ a.originalFileName.isSome = true ∧
        a.originalPath.isSome = true) →
      ∃ out, process_whatsapp_assets non_wa was = Except.ok out := by
  intro was
  induction was with
  | nil => exact fun _ => ⟨[], rfl⟩
  | cons wa rest ih =>
    intro hall
    obtain ⟨hid, hname, hpath⟩ := hall wa (List.mem_cons_self wa rest)
    obtain ⟨here, hhere⟩ := process_whatsapp_asset_total non_wa wa hid hname hpath hnames
    obtain ⟨there, hthere⟩ := ih (fun a ha => hall a (List.mem_cons_of_mem wa ha))
    refine ⟨here ++ there, ?_⟩
    simp only [process_whatsapp_assets, hhere, hthere]

/-- A group whose assets all carry the three string fields is processed
without error. -/
theorem process_duplicate_group_total (g : DuplicateGroup)
    (hall : ∀ a ∈ g.assets.getD [], a.id.isSome = true ∧
      a.originalFileName.isSome = true ∧ a.originalPath.isSome = true) :
    ∃ out, process_duplicate_group g = Except.ok out := by
  simp only [process_duplicate_group, List.partition_eq_filter_filter]
  by_cases hlen : (g.assets.getD []).length < 2
  · rw [if_pos hlen]
    exact ⟨[], rfl⟩
  · rw [if_neg hlen]
    by_cases hcond : (g.assets.getD []).filter is_whatsapp_asset ≠ [] ∧
        (g.assets.getD []).filter (not ∘ is_whatsapp_asset) ≠ []
    · rw [if_pos hcond]
      refine process_whatsapp_assets_total _ ?_ _ ?_
      · intro o ho
        exact (hall o (List.mem_filter.mp ho).1).2.1
      · intro a ha
        exact hall a (List.mem_filter.mp ha).1
    · rw [if_neg hcond]
      exact ⟨[], rfl⟩

/-- C10 (amended): the selector never raises on inputs whose assets all carry
`id`, `originalFileName` and `originalPath`, regardless of missing metadata
blocks or size fields; but (see the counterexample) a qualifying OR SKIPPED
origin asset of a mixed group with a missing field does raise, so totality
genuinely needs those fields on origin assets. -/
theorem C10_total_on_wellformed (duplicates : List DuplicateGroup)
    (hall : ∀ g ∈ duplicates, ∀ a ∈ g.assets.getD [],
      a.id.isSome = true ∧ a.originalFileName.isSome = true ∧
      a.originalPath.isSome = true) :
    is_ok (find_whatsapp_duplicates_to_delete duplicates) = true := by
  induction duplicates with
  | nil => rfl
  | cons g rest ih =>
    obtain ⟨here, hhere⟩ :=
      process_duplicate_group_total g (hall g (List.mem_cons_self g rest))
    have hrest := ih (fun g2 hg2 => hall g2 (List.mem_cons_of_mem g hg2))
    cases hfind : find_whatsapp_duplicates_to_delete rest with
    | error e => rw [hfind] at hrest; cases hrest
    | ok there =>
      simp only [find_whatsapp_duplicates_to_delete, hhere, hfind]
      rfl

/-- C10 witness: a well-formed group whose non-WhatsApp asset has no metadata
block at all is processed without error. -/
theorem C10_total_on_wellformed_witness :
    is_ok (find_whatsapp_duplicates_to_delete [noexif_group]) = true :=
  C10_total_on_wellformed [noexif_group] (by decide)

/-! ## C9 -/

/-- C9 counterexample: the claim asserts the broadened prefix-matching
indicator set is explicitly selectable by configuration.  In the source the
classifier's indicator list is the hardcoded `whatsapp_indicators`, which
contains none of the broadened entries (they are the commented-out lines 152,
154, 155), and the program offers no configuration that changes it; under the
program's classifier the camera asset is non-origin, so no selectable
configuration classifies it origin. -/
theorem C9_hardcoded_indicators_counterexample :
    whatsapp_indicators = ["whatsapp", "/sent/"] ∧
    whatsapp_indicators.contains "wa0" = false ∧
    whatsapp_indicators.contains "img-" = false ∧
    whatsapp_indicators.contains "-wa0" = false ∧
    is_whatsapp_asset camera_asset = false := by
  exact ⟨rfl, rfl, rfl, rfl, by decide⟩

/-- C9 (amended): the classification divergence of the spec's example is real,
but only one indicator set exists in the program.  Under the code's hardcoded
minimal set, `/albums/WhatsApp Images/img1.jpg` is origin and
`/albums/Camera/IMG-20230101.jpg` is non-origin; the same classifier body run
with the broadened set (modelled from the spec; its extra entries are only
comments in the source) would classify the camera asset as origin; and the
code's classifier coincides with the parameterized classifier applied to the
hardcoded list. -/
theorem C9_indicator_sets :
    is_whatsapp_asset wa_asset_100 = true ∧
    is_whatsapp_asset camera_asset = false ∧
    is_whatsapp_asset_with broadened_indicators camera_asset = true ∧
    is_whatsapp_asset_with whatsapp_indicators camera_asset = is_whatsapp_asset camera_asset ∧
    is_whatsapp_asset_with whatsapp_indicators wa_asset_100 = is_whatsapp_asset wa_asset_100 := by
  exact ⟨by decide, by decide, by decide, rfl, rfl⟩

/-! ## C4 and C5 -/

/-- C4: whenever the remote request fails (non-success status, timeout, or
network error) and the fetch actually goes to the network (forced, or the
cache is absent/stale), the fetch returns the parsed cache contents when the
cache file exists, and the empty sequence when it does not; being a total
function of the modelled failure, it propagates no exception. -/
theorem C4_fetch_failure_fallback (cache : Option CacheFile) (now : Int)
    (http : HttpResult) (force_refresh : Bool)
    (hfail : http_failed http = true)
    (hnet : force_refresh = true ∨ _is_cache_valid cache now 24 = false) :
    (∀ cf data, cache = some cf → cf.content = some data →
      get_asset_duplicates cache now http force_refresh = data) ∧
    (cache = none → get_asset_duplicates cache now http force_refresh = []) := by
  have hcond : (!force_refresh && _is_cache_valid cache now 24) = false := by
    rcases hnet with hf | hv
    · rw [hf]; rfl
    · rw [hv, Bool.and_false]
  constructor
  · intro cf data hcf hdata
    subst hcf
    rw [get_asset_duplicates, hcond]
    simp only [Bool.false_eq_true, if_false]
    have hload : _load_cache (some cf) = data := by
      rw [_load_cache, hdata]
      rfl
    cases http with
    | response status text json =>
      have hne : (status == 200) = false := by
        simp only [http_failed, bne_iff_ne, ne_eq] at hfail
        exact beq_eq_false_iff_ne.mpr hfail
      simp only [fetch_fresh, hne, Bool.false_eq_true, if_false, Option.isSome_some,
        if_true, hload]
    | timeoutErr =>
      simp only [fetch_fresh, Option.isSome_some, if_true, hload]
    | requestErr msg =>
      simp only [fetch_fresh, Option.isSome_some, if_true, hload]
  · intro hcf
    subst hcf
    rw [get_asset_duplicates, hcond]
    simp only [Bool.false_eq_true, if_false]
    cases http with
    | response status text json =>
      have hne : (status == 200) = false := by
        simp only [http_failed, bne_iff_ne, ne_eq] at hfail
        exact beq_eq_false_iff_ne.mpr hfail
      simp [fetch_fresh, hne]
    | timeoutErr => simp [fetch_fresh]
    | requestErr msg => simp [fetch_fresh]

/-- C4 witness: a timed-out request with a stale cache returns the cached
sequence; a failed (500) request with no cache file returns the empty
sequence. -/
theorem C4_fetch_failure_fallback_witness :
    get_asset_duplicates (some ⟨0, some [single_group]⟩) 100000 HttpResult.timeoutErr false =
      [single_group] ∧
    get_asset_duplicates none 0 (HttpResult.response 500 "err" none) true = [] :=
  ⟨(C4_fetch_failure_fallback (some ⟨0, some [single_group]⟩) 100000 HttpResult.timeoutErr
      false rfl (Or.inr (by decide))).1 ⟨0, some [single_group]⟩ [single_group] rfl rfl,
   (C4_fetch_failure_fallback none 0 (HttpResult.response 500 "err" none) true
      (by decide) (Or.inr rfl)).2 rfl⟩

/-- C5: with `force_refresh` false, a cache file strictly younger than the
24-hour threshold is served without the remote response ever being looked at
(the same parsed cache contents are returned for every possible response),
while a cache file exactly 25 hours old is stale: the fetch proceeds to the
fresh-fetch path (lines 82-113). -/
theorem C5_cache_freshness (cf : CacheFile) (now : Int) (http : HttpResult) :
    (now - cf.mtime < 24 * 3600 →
      ∀ data, cf.content = some data →
        get_asset_duplicates (some cf) now http false = data) ∧
    (now - cf.mtime = 25 * 3600 →
      get_asset_duplicates (some cf) now http false = fetch_fresh (some cf) http) := by
  constructor
  · intro hfresh data hdata
    have hvalid : _is_cache_valid (some cf) now 24 = true := by
      simp only [_is_cache_valid, decide_eq_true_eq]
      exact hfresh
    rw [get_asset_duplicates, hvalid]
    simp only [Bool.not_false, Bool.and_true, if_true]
    rw [_load_cache, hdata]
    rfl
  · intro hstale
    have hvalid : _is_cache_valid (some cf) now 24 = false := by
      simp only [_is_cache_valid, decide_eq_false_iff_not]
      omega
    rw [get_asset_duplicates, hvalid]
    rfl

/-- C5 witness: a one-hour-old cache is served as-is for a response the
network never delivers (a timeout); a 25-hour-old cache triggers the
fresh-fetch path. -/
theorem C5_cache_freshness_witness :
    get_asset_duplicates (some ⟨0, some [single_group]⟩) 3600 HttpResult.timeoutErr false =
      [single_group] ∧
    get_asset_duplicates (some ⟨0, some [single_group]⟩) (25 * 3600) HttpResult.timeoutErr
      false = fetch_fresh (some ⟨0, some [single_group]⟩) HttpResult.timeoutErr :=
  ⟨(C5_cache_freshness ⟨0, some [single_group]⟩ 3600 HttpResult.timeoutErr).1 (by decide)
      [single_group] rfl,
   (C5_cache_freshness ⟨0, some [single_group]⟩ (25 * 3600) HttpResult.timeoutErr).2
      (by decide)⟩

/-! ## C6 and C8 -/

/-- C6: the deletion executor.  An empty identifier list yields success with
no request issued (whatever the network would have answered); a non-empty
list issues exactly one DELETE whose payload is the whole identifier list,
returns `True` if and only if the status is 204, and reports the status and
response body on any other status. -/
theorem C6_delete_executor_contract (asset_ids : List String) (http : DeleteHttp) :
    (asset_ids = [] → delete_assets asset_ids http = ⟨[], none, Except.ok true⟩) ∧
    (∀ status text, asset_ids ≠ [] → http = DeleteHttp.response status text →
      (delete_assets asset_ids http).requests = [asset_ids] ∧
      ((delete_assets asset_ids http).result = Except.ok true ↔ status = 204) ∧
      (status ≠ 204 → (delete_assets asset_ids http).reported =
        some ("Error deleting assets: " ++ toString status ++ " - " ++ text))) := by
  constructor
  · intro hnil
    subst hnil
    rfl
  · intro status text hne hhttp
    subst hhttp
    have hreq : (delete_assets asset_ids (DeleteHttp.response status text)).requests
        = [asset_ids] := by
      simp only [delete_assets, if_neg hne]
      by_cases h204 : (status == 204) = true
      · rw [if_pos h204]
      · rw [if_neg h204]
    refine ⟨hreq, ?_, ?_⟩
    · by_cases h204 : status = 204
      · subst h204
        simp [delete_assets, if_neg hne]
      · have hbeq : (status == 204) = false := beq_eq_false_iff_ne.mpr h204
        simp only [delete_assets, if_neg hne, hbeq, Bool.false_eq_true, if_false]
        simp [h204]
    · intro h204
      have hbeq : (status == 204) = false := beq_eq_false_iff_ne.mpr h204
      simp only [delete_assets, if_neg hne, hbeq, Bool.false_eq_true, if_false]

/-- C6 witness: the empty list succeeds with no request even when the network
would answer 500; a one-element list on a 500 response issues exactly one
request and does not succeed. -/
theorem C6_delete_executor_contract_witness :
    delete_assets [] (DeleteHttp.response 500 "oops") = ⟨[], none, Except.ok true⟩ ∧
    (delete_assets ["a"] (DeleteHttp.response 500 "oops")).requests = [["a"]] ∧
    ((delete_assets ["a"] (DeleteHttp.response 500 "oops")).result = Except.ok true ↔
      500 = 204) :=
  ⟨(C6_delete_executor_contract [] (DeleteHttp.response 500 "oops")).1 rfl,
   ((C6_delete_executor_contract ["a"] (DeleteHttp.response 500 "oops")).2 500 "oops"
      (by decide) rfl).1,
   ((C6_delete_executor_contract ["a"] (DeleteHttp.response 500 "oops")).2 500 "oops"
      (by decide) rfl).2.1⟩

/-! ## C8 -/

/-- C8 counterexample: `delete_assets` wraps `requests.delete` in no
try/except (lines 115-129), so a network error raised during a delete call
propagates as an exception instead of becoming a reported outcome, contrary
to the claim that no error condition escapes uncaught. -/
theorem C8_delete_raise_counterexample :
    (delete_assets ["a1"] (DeleteHttp.raise "ConnectionError")).result =
      Except.error "ConnectionError" :=
  rfl

/-- C8 (amended): fetch, cache read and local-file load failures are caught at
their boundaries (malformed or missing files load as `[]`), and the delete
call converts every HTTP response - any status - into a returned boolean, but
an exception raised by the HTTP DELETE itself is not caught: it propagates to
the caller, except in the trivial empty-list case where no request is made. -/
theorem C8_error_boundaries (asset_ids : List String) (status : Nat)
    (text e : String) (mtime : Int) :
    is_ok (delete_assets asset_ids (DeleteHttp.response status text)).result = true ∧
    (asset_ids ≠ [] →
      (delete_assets asset_ids (DeleteHttp.raise e)).result = Except.error e) ∧
    (delete_assets [] (DeleteHttp.raise e)).result = Except.ok true ∧
    _load_cache (some ⟨mtime, none⟩) = [] ∧
    _load_cache none = [] ∧
    load_duplicates_from_file none = [] ∧
    load_duplicates_from_file (some none) = [] := by
    refine ⟨?_, ?_, rfl, rfl, rfl, rfl, rfl⟩
    · by_cases hnil : asset_ids = []
      · subst hnil; rfl
      · simp only [delete_assets, if_neg hnil]
        by_cases h204 : (status == 204) = true
        · rw [h204]; rfl
        · rw [Bool.of_not_eq_true h204]; rfl
    · intro hne
      simp only [delete_assets, if_neg hne]

/-- C8 witness: a raised network error on a non-empty delete escapes as an
exception. -/
theorem C8_error_boundaries_witness :
    (delete_assets ["a"] (DeleteHttp.raise "neterr")).result = Except.error "neterr" :=
  (C8_error_boundaries ["a"] 500 "body" "neterr" 0).2.1 (by decide)

/-! ## C7 -/

/-- The number of batches is the number of 50-slices of the candidate list. -/
theorem batch_chunks_length (l : List String) :
    (batch_chunks l).length = (l.length + 49) / 50 := by
  induction l using batch_chunks.induct with
  | case1 => simp [batch_chunks]
  | case2 a rest ih =>
    simp only [batch_chunks, List.length_cons, ih, List.length_drop]
    omega

/-- The batch loop, started at batch index `k`: if the first `f` outcomes from
`k` succeed and outcome `k + f` fails, the loop passes exactly the first
`f + 1` slices to `delete_assets` and counts only the `f` successful ones. -/
theorem main_batch_loop_halt (outcomes : Nat → Bool) :
    ∀ (f : Nat) (ids : List String) (k : Nat),
      f < (batch_chunks ids).length →
      (∀ j, j < f → outcomes (k + j) = true) →
      outcomes (k + f) = false →
      main_batch_loop outcomes ids k =
        ((batch_chunks ids).take (f + 1),
         (((batch_chunks ids).take f).map List.length).sum) := by
  intro f
  induction f with
  | zero =>
    intro ids k hf hbefore hfail
    rw [Nat.add_zero] at hfail
    cases ids with
    | nil => simp [batch_chunks] at hf
    | cons a rest =>
      simp only [main_batch_loop, hfail, Bool.false_eq_true, if_false]
      simp [batch_chunks]
  | succ f ih =>
    intro ids k hf hbefore hfail
    cases ids with
    | nil => simp [batch_chunks] at hf
    | cons a rest =>
      have h0 : outcomes k = true := by
        have h00 := hbefore 0 (Nat.succ_pos f)
        rwa [Nat.add_zero] at h00
      simp only [main_batch_loop, h0, if_true]
      have hf2 : f < (batch_chunks ((a :: rest).drop 50)).length := by
        simp only [batch_chunks, List.length_cons] at hf
        omega
      have hb2 : ∀ j, j < f → outcomes (k + 1 + j) = true := by
        intro j hj
        have heq : k + 1 + j = k + (j + 1) := by omega
        rw [heq]
        exact hbefore (j + 1) (by omega)
      have hfail2 : outcomes (k + 1 + f) = false := by
        have heq : k + 1 + f = k + (f + 1) := by omega
        rw [heq]
        exact hfail
      rw [ih ((a :: rest).drop 50) (k + 1) hf2 hb2 hfail2]
      conv_rhs => rw [batch_chunks]
      simp

/-- C7: when real deletion runs over the candidate list in fixed slices of 50
(lines 307-322 of `main`) and batch `f` is the first whose delete call returns
`False`, the loop attempts exactly the first `f + 1` batches - none after the
failed one - and the reported `total_deleted` count is the total number of
identifiers in the `f` batches that succeeded before the failure. -/
theorem C7_batch_halt (ids : List String) (outcomes : Nat → Bool) (f : Nat)
    (hf : f < (batch_chunks ids).length)
    (hbefore : ∀ j, j < f → outcomes j = true)
    (hfail : outcomes f = false) :
    main_batch_loop outcomes ids 0 =
      ((batch_chunks ids).take (f + 1),
       (((batch_chunks ids).take f).map List.length).sum) := by
  refine main_batch_loop_halt outcomes f ids 0 hf ?_ ?_
  · intro j hj
    rw [Nat.zero_add]
    exact hbefore j hj
  · rw [Nat.zero_add]
    exact hfail

/-- C7 witness: 101 candidates form three batches; when the second batch (index
1) fails, the loop attempts only the first two batches and reports one full
batch's worth - 50 - as deleted. -/
theorem C7_batch_halt_witness :
    (batch_chunks (List.replicate 101 "x")).length = 3 ∧
    (((batch_chunks (List.replicate 101 "x")).take 1).map List.length).sum = 50 ∧
    main_batch_loop (fun j => j == 0) (List.replicate 101 "x") 0 =
      ((batch_chunks (List.replicate 101 "x")).take 2,
       (((batch_chunks (List.replicate 101 "x")).take 1).map List.length).sum) :=
  ⟨by rw [batch_chunks_length]; simp,
   by
    have hrep : List.replicate 101 "x" = "x" :: List.replicate 100 "x" := rfl
    rw [hrep]
    conv_lhs => rw [batch_chunks]
    simp,
   C7_batch_halt (List.replicate 101 "x") (fun j => j == 0) 1
     (by rw [batch_chunks_length]; simp)
     (fun j hj => by
       have hj0 : j = 0 := Nat.lt_one_iff.mp hj
       subst hj0
       rfl)
     rfl⟩
